import Mathlib

/-
  Verification of the mbox append synchronization engine
  (src/lib-index/mbox/mbox-append.c).

  Shallow embedding conventions:
  - Bytes are Nat values; byte sequences are List Nat.
  - The buffered reader (IOBuffer) is modelled with an unbounded buffer that
    always holds the whole mailbox: Stream.data is the full byte sequence
    (with the buffer beginning at file position 0, so start_offset = 0 and
    all offsets are absolute), Stream.offset is the read cursor and
    Stream.size the soft ceiling.  io_buffer_read_data is modelled as
    providing the entire remainder at once and reporting end-of-data on the
    following call; the windowed refill loops of the C code are therefore
    modelled by their overall effect, except for readMessagePass below,
    which models a single pass of the mbox_read_message refill loop.
  - The index, the MD5 digest and the header-parsing collaborator are
    external to this file per the spec; their outcomes are oracle data in
    Env.  The header collaborator only reads and seeks the shared stream,
    so its effect is modelled as an arbitrary cursor motion (Env.hdrCursor).
-/

namespace MboxAppend

/-- The 5-byte separator literal "From ". -/
def fromLit : List Nat := [70, 114, 111, 109, 32]

/-- The match test of the inner scan loop of mbox_read_message: position i
holds a space and the five preceding bytes are LF, F, r, o, m. -/
def isFromMatch (msg : List Nat) (i : Nat) : Bool :=
  decide (5 ≤ i) && (msg.getD i 0 == 32) && (msg.getD (i - 5) 0 == 10) &&
  (msg.getD (i - 4) 0 == 70) && (msg.getD (i - 3) 0 == 114) &&
  (msg.getD (i - 2) 0 == 111) && (msg.getD (i - 1) 0 == 109)

/-- Fuel-indexed scan: try indices i, i+1, ... for an isFromMatch hit. -/
def scanFromAux (msg : List Nat) : Nat → Nat → Nat
  | 0, i => i
  | fuel + 1, i => if isFromMatch msg i then i else scanFromAux msg fuel (i + 1)

/-- First index at or after start where isFromMatch holds, or msg.length if
none (the for-loop of mbox_read_message over one fully buffered window). -/
def scanFrom (msg : List Nat) (start : Nat) : Nat :=
  scanFromAux msg (msg.length - start) start

/-- The backup step after a match (i -= 5; optionally step over a CR):
from the space position, back to the LF, then over a preceding CR. -/
def backupMatch (msg : List Nat) (i : Nat) : Nat :=
  let j := i - 5
  if 0 < j && msg.getD (j - 1) 0 == 13 then j - 1 else j

/-- The end-of-file trim of mbox_read_message: drop one trailing LF if
present, then one trailing CR if present (as in the C code, the CR test is
not conditional on the LF having been dropped). startpos is the current
byte count of the retained window msg. -/
def trimEnd (msg : List Nat) (startpos : Nat) : Nat :=
  let s1 := if msg.getD (startpos - 1) 0 == 10 then startpos - 1 else startpos
  if 0 < s1 && msg.getD (s1 - 1) 0 == 13 then s1 - 1 else s1

/-- One pass of the mbox_read_message while-loop over a buffered window msg,
resuming at startpos.  Sum.inr b: match found, boundary b (backed-up index).
Sum.inl (skip, keep): full pass without a match, skip bytes are consumed
from the stream and keep bytes are retained as the next pass's startpos. -/
def readMessagePass (msg : List Nat) (startpos : Nat) : Sum (Nat × Nat) Nat :=
  let i := scanFrom msg startpos
  if i < msg.length then Sum.inr (backupMatch msg i)
  else if 0 < i then
    let sp := if i < 7 then i else 7
    Sum.inl (i - sp, sp)
  else Sum.inl (0, startpos)

/-- Overall stream effect of mbox_read_message: the number of bytes the
call consumes from the remaining stream rest.  On a match the cursor stops
at the backed-up boundary; with no match the whole stream is consumed up to
the end-of-file trim (the retained tail of the last pass is min(length,7)
bytes, and the trim operates on that retained window). -/
def mbox_read_message (rest : List Nat) : Nat :=
  let i := scanFrom rest 0
  if i < rest.length then
    backupMatch rest i
  else if rest.length = 0 then 0
  else
    let keep := if rest.length < 7 then rest.length else 7
    let skipped := rest.length - keep
    skipped + trimEnd (rest.drop skipped) keep

/-- Fuel-indexed search for the first LF at or after index i. -/
def findNLAux (msg : List Nat) : Nat → Nat → Nat
  | 0, i => i
  | fuel + 1, i => if msg.getD i 0 == 10 then i else findNLAux msg fuel (i + 1)

/-- Index of the first LF in msg, or msg.length if none (the From-line
lookahead loop of mbox_index_append_next). -/
def findNL (msg : List Nat) : Nat := findNLAux msg msg.length 0

/-- The integrity test of mbox_index_append_next on the remaining bytes:
no newline found in the lookahead window, or window not longer than 5
bytes, or the line does not begin with the literal "From ". -/
def fromLineBad (rest : List Nat) : Bool :=
  decide (findNL rest = rest.length ∨ rest.length ≤ 5 ∨ rest.take 5 ≠ fromLit)

/-- The mailbox stream: full byte contents, absolute read cursor and soft
ceiling (buffer start pinned at file offset 0, see header comment). -/
structure Stream where
  data : List Nat
  offset : Nat
  size : Nat
deriving DecidableEq

/-- Bytes currently readable from the stream: up to the soft ceiling,
from the cursor on. -/
def remaining (s : Stream) : List Nat := (s.data.take s.size).drop s.offset

/-- One index record, field by field; a field is none until it has been
committed to the record. -/
structure MboxRecord where
  internal_date : Int
  location : Option Nat
  md5 : Option (List Nat)
  msg_flags : Option Nat
  uid : Option Nat
deriving DecidableEq

/-- The path-qualified operator-facing errors of the engine. -/
inductive MboxError where
  | fromLineNotFound (path : String)
  | lfNotFound (path : String)
deriving DecidableEq

/-- Oracle outcomes and data of the external collaborators (index, lock,
durability barrier, date parser, header collaborator). -/
structure Env where
  mboxPath : String
  lockOk : Bool
  appendOk : Bool
  updateEndOk : Bool
  fmsyncOk : Bool
  nextUid : Nat
  parseDate : List Nat → Int
  ioloopTime : Int
  hdrFlags : Nat
  hdrDigest : List Nat
  hdrCursor : Stream → Nat

/-- Result of one message transaction (mbox_index_append_next): success
flag, whether the sticky FSCK flag was set, the error produced, the final
record contents (none if no record was allocated), how many times the
header parse context was freed, and the final stream state. -/
structure NextResult where
  ok : Bool
  fsck : Bool
  error : Option MboxError
  record : Option MboxRecord
  ctxFreed : Nat
  stream : Stream

/-- The message transaction mbox_index_append_next. -/
def mbox_index_append_next (env : Env) (s : Stream) : NextResult :=
  let rest := remaining s
  if fromLineBad rest then
    { ok := false, fsck := true,
      error := some (MboxError.fromLineNotFound env.mboxPath),
      record := none, ctxFreed := 0, stream := s }
  else
    let pos := findNL rest
    let internal_date :=
      if env.parseDate rest ≤ 0 then env.ioloopTime else env.parseDate rest
    let s1 : Stream := { s with offset := s.offset + (pos + 1) }
    let abs_start := s1.offset
    let adv := mbox_read_message (remaining s1)
    let s2 : Stream := { s1 with offset := s1.offset + adv }
    let stop_offset := s2.offset
    if env.appendOk then
      let old_size := s2.size
      let s3 : Stream := { s2 with size := stop_offset, offset := abs_start }
      let s4 : Stream := { s3 with offset := env.hdrCursor s3 }
      let s5 : Stream := { s4 with size := old_size, offset := stop_offset }
      if env.updateEndOk then
        if env.fmsyncOk then
          { ok := true, fsck := false, error := none,
            record := some { internal_date := internal_date,
                             location := some abs_start,
                             md5 := some env.hdrDigest,
                             msg_flags := some env.hdrFlags,
                             uid := some env.nextUid },
            ctxFreed := 1, stream := s5 }
        else
          { ok := false, fsck := false, error := none,
            record := some { internal_date := internal_date,
                             location := some abs_start,
                             md5 := some env.hdrDigest,
                             msg_flags := some env.hdrFlags,
                             uid := none },
            ctxFreed := 0, stream := s5 }
      else
        { ok := false, fsck := false, error := none,
          record := some { internal_date := internal_date,
                           location := none, md5 := none,
                           msg_flags := none, uid := none },
          ctxFreed := 1, stream := s5 }
    else
      { ok := false, fsck := false, error := none,
        record := none, ctxFreed := 0, stream := s2 }

/-- True when the transaction produced a record carrying an identity. -/
def NextResult.uidAssigned (r : NextResult) : Bool :=
  match r.record with
  | none => false
  | some r0 => r0.uid.isSome

/-- True when the transaction produced a record with location, digest and
flags all committed. -/
def NextResult.fieldsComplete (r : NextResult) : Bool :=
  match r.record with
  | none => false
  | some r0 => r0.location.isSome && r0.md5.isSome && r0.msg_flags.isSome

/-- Internal date of the produced record, if any. -/
def NextResult.recInternalDate (r : NextResult) : Option Int :=
  Option.map MboxRecord.internal_date r.record

/-- Modelled from the spec: mbox_skip_crlf is code of this repository that
is not under src/ (only its caller is).  Per sections 4.4 and 6.2 of the
spec it skips exactly one line terminator, an optional CR followed by an
LF, and fails when the expected terminator is absent.  Returns the number
of bytes skipped. -/
def mbox_skip_crlf (rest : List Nat) : Option Nat :=
  match rest with
  | 13 :: 10 :: _ => some 2
  | 10 :: _ => some 1
  | _ => none

/-- Result of the append driver. -/
structure DriverResult where
  ok : Bool
  fsck : Bool
  error : Option MboxError
  stream : Stream

/-- The separator-skip step at the top of each driver-loop iteration: at
the very start of the stream nothing is skipped; otherwise the pending
line terminator must be skipped, and its absence is the failure case
(none). -/
def loopStep (s : Stream) : Option Stream :=
  if s.offset = 0 then some s
  else
    match mbox_skip_crlf (remaining s) with
    | none => none
    | some k => some { s with offset := s.offset + k }

/-- The for-loop of mbox_index_append, fuel-indexed (the wrapper supplies
enough fuel; each continuing iteration consumes at least one byte). -/
def appendLoop (env : Env) : Nat → Stream → DriverResult
  | 0, s => { ok := false, fsck := false, error := none, stream := s }
  | fuel + 1, s =>
    (loopStep s).elim
      { ok := false, fsck := true,
        error := some (MboxError.lfNotFound env.mboxPath), stream := s }
      (fun t =>
        if t.offset = t.size then
          { ok := true, fsck := false, error := none, stream := t }
        else
          if (mbox_index_append_next env t).ok then
            appendLoop env fuel (mbox_index_append_next env t).stream
          else
            { ok := false, fsck := (mbox_index_append_next env t).fsck,
              error := (mbox_index_append_next env t).error,
              stream := (mbox_index_append_next env t).stream })

/-- The append driver mbox_index_append: no-new-data fast path, exclusive
lock acquisition, then the per-message loop. -/
def mbox_index_append (env : Env) (s : Stream) : DriverResult :=
  if s.offset = s.size then
    { ok := true, fsck := false, error := none, stream := s }
  else if env.lockOk then appendLoop env (s.size - s.offset + 1) s
  else { ok := false, fsck := false, error := none, stream := s }

/-- Concrete stream for C5: a mid-line "From " followed by a real
separator ("A: From B\nFrom c\n" as bytes). -/
def msgC5 : List Nat := [65, 58, 32, 70, 114, 111, 109, 32, 66, 10, 70, 114, 111, 109, 32, 99, 10]

/-- Concrete body for C8: the body itself begins with "From "
("From a\nBody" as bytes). -/
def c8body : List Nat := [70, 114, 111, 109, 32, 97, 10, 66, 111, 100, 121]

theorem scanFromAux_match (msg : List Nat) :
    ∀ (fuel i : Nat), scanFromAux msg fuel i < i + fuel →
      isFromMatch msg (scanFromAux msg fuel i) = true := by
  intro fuel
  induction fuel with
  | zero => intro i h; rw [scanFromAux] at h; omega
  | succ n ih =>
    intro i h
    rw [scanFromAux] at h ⊢
    by_cases hm : isFromMatch msg i
    · simp [hm]
    · simp only [hm, if_false, Bool.false_eq_true] at h ⊢
      exact ih (i + 1) (by omega)

theorem getD_drop (l : List Nat) :
    ∀ (i j : Nat), (l.drop i).getD j 0 = l.getD (i + j) 0 := by
  induction l with
  | nil => intro i j; simp
  | cons a t ih =>
    intro i j
    cases i with
    | zero => simp
    | succ n =>
      have h1 : n + 1 + j = (n + j) + 1 := by omega
      rw [List.drop_succ_cons, ih n j, h1, List.getD_cons_succ]

/-- C3 (amended): after a full pass over the buffered window without a
match, the scanner skips forward past all but the last 7 bytes of the
scanned window (it retains min(window, 7) bytes of lookback, not 6). -/
theorem C3_pass_retains_seven (msg : List Nat) (sp : Nat)
    (hnm : scanFrom msg sp = msg.length) (h7 : 7 ≤ msg.length) :
    readMessagePass msg sp = Sum.inl (msg.length - 7, 7) := by
  simp only [readMessagePass]
  rw [hnm, if_neg (lt_irrefl _),
    if_pos (show 0 < msg.length by omega),
    if_neg (show ¬ msg.length < 7 by omega)]

/-- C3 witness: a concrete 9-byte window with no match is skipped down to
its last 7 bytes. -/
theorem C3_pass_retains_seven_witness :
    readMessagePass (List.replicate 9 98) 0 =
      Sum.inl ((List.replicate 9 98).length - 7, 7) :=
  C3_pass_retains_seven (List.replicate 9 98) 0 (by decide) (by decide)

/-- C3 counterexample: on a 13-byte window with no match, the pass skips 6
bytes and retains 7, not (as the claim states) skipping all but the last 6
bytes with 6 bytes of lookback. -/
theorem C3_counterexample :
    scanFrom (List.replicate 13 97) 0 = (List.replicate 13 97).length ∧
    readMessagePass (List.replicate 13 97) 0 = Sum.inl (6, 7) ∧
    readMessagePass (List.replicate 13 97) 0 ≠
      Sum.inl ((List.replicate 13 97).length - 6, 6) := by decide

theorem trimEnd_drop (rest : List Nat) (k : Nat) (hk1 : 1 ≤ k)
    (hk2 : k ≤ rest.length) :
    trimEnd (rest.drop (rest.length - k)) k =
      k - (if rest.getD (rest.length - 1) 0 = 10 then 1 else 0)
        - (if ((if rest.getD (rest.length - 1) 0 = 10 then 1 else 0) < k ∧
              rest.getD (rest.length - 1 -
                (if rest.getD (rest.length - 1) 0 = 10 then 1 else 0)) 0 = 13)
           then 1 else 0) := by
  simp only [trimEnd, List.getD_eq_getElem?_getD, List.getElem?_drop,
    Bool.and_eq_true, decide_eq_true_eq, beq_iff_eq]
  rw [show rest.length - k + (k - 1) = rest.length - 1 from by omega]
  by_cases hlf : rest[rest.length - 1]?.getD 0 = 10
  · simp only [hlf, eq_self_iff_true, if_true]
    by_cases hk : 2 ≤ k
    · rw [show rest.length - k + (k - 1 - 1) = rest.length - 1 - 1 from by omega]
      by_cases hcr : rest[rest.length - 1 - 1]?.getD 0 = 13
      · rw [if_pos ⟨by omega, hcr⟩, if_pos ⟨by omega, hcr⟩]
      · rw [if_neg (fun h => hcr h.2), if_neg (fun h => hcr h.2)]
        omega
    · have hke : k = 1 := by omega
      subst hke
      rw [if_neg (fun h => absurd h.1 (by decide)),
        if_neg (fun h => absurd h.1 (by decide))]
  · simp only [hlf, if_false, Nat.sub_zero]
    rw [show rest.length - k + (k - 1) = rest.length - 1 from by omega]
    by_cases hcr : rest[rest.length - 1]?.getD 0 = 13
    · rw [if_pos ⟨by omega, hcr⟩, if_pos ⟨by omega, hcr⟩]
    · rw [if_neg (fun h => hcr h.2), if_neg (fun h => hcr h.2)]
      omega

/-- C4 (amended): when the boundary scanner finds no next separator and
unread trailing bytes remain, it trims up to one trailing LF and then up
to one trailing CR; the CR trim is independent of whether an LF was
trimmed (a stream ending in a bare CR also has that CR trimmed), and a
body ending in two newlines keeps the first of them. -/
theorem C4_last_message_trim (rest : List Nat)
    (hnm : scanFrom rest 0 = rest.length) (hne : 0 < rest.length) :
    (mbox_read_message rest =
      rest.length - (if rest.getD (rest.length - 1) 0 = 10 then 1 else 0)
        - (if ((if rest.getD (rest.length - 1) 0 = 10 then 1 else 0) <
                (if rest.length < 7 then rest.length else 7) ∧
              rest.getD (rest.length - 1 -
                (if rest.getD (rest.length - 1) 0 = 10 then 1 else 0)) 0 = 13)
           then 1 else 0)) ∧
    (rest.getD (rest.length - 1) 0 = 10 → rest.getD (rest.length - 2) 0 ≠ 13 →
      2 ≤ rest.length → mbox_read_message rest = rest.length - 1) := by
  have hk1 : 1 ≤ (if rest.length < 7 then rest.length else 7) := by
    split <;> omega
  have hk2 : (if rest.length < 7 then rest.length else 7) ≤ rest.length := by
    split <;> omega
  have hmr : mbox_read_message rest =
      (rest.length - (if rest.length < 7 then rest.length else 7)) +
        trimEnd
          (rest.drop (rest.length - (if rest.length < 7 then rest.length else 7)))
          (if rest.length < 7 then rest.length else 7) := by
    simp only [mbox_read_message]
    rw [hnm, if_neg (lt_irrefl _), if_neg (show ¬ rest.length = 0 by omega)]
  set K := (if rest.length < 7 then rest.length else 7) with hKd
  rw [hmr, trimEnd_drop rest K hk1 hk2]
  constructor
  · by_cases hlf : rest.getD (rest.length - 1) 0 = 10
    · simp only [hlf, eq_self_iff_true, if_true]
      by_cases hcr : (1 < K ∧ rest.getD (rest.length - 1 - 1) 0 = 13)
      · rw [if_pos hcr]
        obtain ⟨hcr1, _⟩ := hcr
        omega
      · rw [if_neg hcr]
        omega
    · simp only [hlf, if_false, Nat.sub_zero]
      by_cases hcr : (0 < K ∧ rest.getD (rest.length - 1) 0 = 13)
      · rw [if_pos hcr]
        omega
      · rw [if_neg hcr]
        omega
  · intro hlf hcr2 hn2
    simp only [hlf, eq_self_iff_true, if_true]
    rw [show rest.length - 1 - 1 = rest.length - 2 from by omega]
    rw [if_neg (fun h => hcr2 h.2)]
    omega

/-- C4 witness: the concrete last-message body "B\n\n" (no separator
found, nonempty) keeps the first of its two trailing newlines: exactly one
byte is trimmed. -/
theorem C4_last_message_trim_witness :
    mbox_read_message [66, 10, 10] = [66, 10, 10].length - 1 :=
  (C4_last_message_trim [66, 10, 10] (by decide) (by decide)).2
    (by decide) (by decide) (by decide)

/-- C4 counterexample: on the stream "X\r" (no separator, not ending in a
newline) the claim implies nothing is trimmed, yet the scanner consumes
only 1 of the 2 bytes: the bare trailing CR is trimmed even though no LF
precedes it. -/
theorem C4_counterexample :
    scanFrom [88, 13] 0 = 2 ∧ List.getD [88, 13] 1 0 ≠ 10 ∧
    mbox_read_message [88, 13] ≠ 2 ∧ mbox_read_message [88, 13] = 1 := by
  decide

/-- C5: the boundary scanner reports a message boundary only where the six
contiguous bytes LF, F, r, o, m, space occur in the stream (so a mid-line
"From " is never taken as a separator), and on a match the reported
boundary is backed up over the bare LF and, if present, one preceding CR,
stopping just before the line terminator. -/
theorem C5_separator_contiguity (msg : List Nat) (i : Nat)
    (h1 : scanFrom msg 0 = i) (h2 : i < msg.length) :
    (5 ≤ i ∧ msg.getD (i - 5) 0 = 10 ∧ msg.getD (i - 4) 0 = 70 ∧
     msg.getD (i - 3) 0 = 114 ∧ msg.getD (i - 2) 0 = 111 ∧
     msg.getD (i - 1) 0 = 109 ∧ msg.getD i 0 = 32) ∧
    mbox_read_message msg =
      (if 5 < i ∧ msg.getD (i - 6) 0 = 13 then i - 6 else i - 5) := by
  have h1x := h1
  unfold scanFrom at h1x
  have hm : isFromMatch msg i = true := by
    have h := scanFromAux_match msg (msg.length - 0) 0
    rw [h1x] at h
    exact h (by omega)
  unfold isFromMatch at hm
  simp only [Bool.and_eq_true, decide_eq_true_eq, beq_iff_eq] at hm
  obtain ⟨⟨⟨⟨⟨⟨hm5, hm32⟩, hm10⟩, hm70⟩, hm114⟩, hm111⟩, hm109⟩ := hm
  refine ⟨⟨hm5, hm10, hm70, hm114, hm111, hm109, hm32⟩, ?_⟩
  simp only [mbox_read_message, backupMatch]
  rw [h1, if_pos h2]
  simp only [Bool.and_eq_true, decide_eq_true_eq, beq_iff_eq]
  rw [show i - 5 - 1 = i - 6 from by omega]
  by_cases hc : 5 < i ∧ msg.getD (i - 6) 0 = 13
  · rw [if_pos ⟨by omega, hc.2⟩, if_pos hc]
  · rw [if_neg (fun h => hc ⟨by omega, h.2⟩), if_neg hc]

/-- C5 witness: in the concrete stream "A: From B\nFrom c\n" the mid-line
"From " at offset 3 is not matched; the match is at the space at index 14,
and the boundary backs up to index 9, just before the LF. -/
theorem C5_separator_contiguity_witness :
    (5 ≤ 14 ∧ msgC5.getD (14 - 5) 0 = 10 ∧ msgC5.getD (14 - 4) 0 = 70 ∧
     msgC5.getD (14 - 3) 0 = 114 ∧ msgC5.getD (14 - 2) 0 = 111 ∧
     msgC5.getD (14 - 1) 0 = 109 ∧ msgC5.getD 14 0 = 32) ∧
    mbox_read_message msgC5 =
      (if 5 < 14 ∧ msgC5.getD (14 - 6) 0 = 13 then 14 - 6 else 14 - 5) :=
  C5_separator_contiguity msgC5 14 (by decide) (by decide)

/-- C8: a match needs its preceding LF inside the scanned body bytes (a
match index is at least 5), so a body whose very first bytes are "From "
is not treated as the next separator: the concrete body "From a\nBody" is
consumed whole as message body. -/
theorem C8_body_start_from_included :
    (∀ (msg : List Nat) (i : Nat), i < 5 → isFromMatch msg i = false) ∧
    mbox_read_message c8body = c8body.length := by
  constructor
  · intro msg i h
    unfold isFromMatch
    rw [decide_eq_false (show ¬ (5 ≤ i) by omega)]
    simp
  · decide

/-- C8 witness: the would-be match position of a leading "From " (the
space at index 4) is rejected. -/
theorem C8_body_start_from_included_witness :
    isFromMatch c8body 4 = false :=
  C8_body_start_from_included.1 c8body 4 (by decide)

theorem next_eq_bad (env : Env) (s : Stream)
    (h : fromLineBad (remaining s) = true) :
    mbox_index_append_next env s =
      { ok := false, fsck := true,
        error := some (MboxError.fromLineNotFound env.mboxPath),
        record := none, ctxFreed := 0, stream := s } := by
  simp [mbox_index_append_next, h]

/-- C1: the record identity (uid) is assigned only when both the
update-transaction commit and the durability barrier succeed; if either
fails, the transaction returns failure and the uid is never written, and
any record carrying an identity also has all its other fields set. -/
theorem C1_identity_after_durability (env : Env) (s : Stream) :
    ((env.updateEndOk = false ∨ env.fmsyncOk = false) →
      (mbox_index_append_next env s).ok = false ∧
      (mbox_index_append_next env s).uidAssigned = false) ∧
    ((mbox_index_append_next env s).uidAssigned = true →
      (mbox_index_append_next env s).ok = true ∧ env.updateEndOk = true ∧
      env.fmsyncOk = true ∧
      (mbox_index_append_next env s).fieldsComplete = true) := by
  cases hb : fromLineBad (remaining s)
  · cases ha : env.appendOk <;> cases hu : env.updateEndOk <;>
      cases hf : env.fmsyncOk <;>
      simp [mbox_index_append_next, hb, ha, hu, hf, NextResult.uidAssigned,
        NextResult.fieldsComplete]
  · rw [next_eq_bad env s hb]
    simp [NextResult.uidAssigned]

/-- Concrete collaborator environment: everything succeeds except the
durability barrier. -/
def envC1 : Env :=
  { mboxPath := "INBOX", lockOk := true, appendOk := true,
    updateEndOk := true, fmsyncOk := false, nextUid := 7,
    parseDate := fun _ => 42, ioloopTime := 100, hdrFlags := 3,
    hdrDigest := List.replicate 16 0, hdrCursor := fun t => t.offset }

/-- Concrete stream "From a\nBody\n". -/
def sC1 : Stream :=
  { data := [70, 114, 111, 109, 32, 97, 10, 66, 111, 100, 121, 10],
    offset := 0, size := 12 }

/-- C1 witness: with a failing durability barrier on a concrete message,
the transaction fails and no identity is assigned. -/
theorem C1_identity_after_durability_witness :
    (mbox_index_append_next envC1 sC1).ok = false ∧
    (mbox_index_append_next envC1 sC1).uidAssigned = false :=
  (C1_identity_after_durability envC1 sC1).1 (Or.inr rfl)

/-- C6: for every transaction that reaches the header-parsing step, the
soft ceiling is restored to its pre-narrowing value and the cursor is
repositioned to the message-end offset, whatever cursor motion the header
collaborator performed. -/
theorem C6_ceiling_restored (env : Env) (s : Stream)
    (hok : fromLineBad (remaining s) = false) (ha : env.appendOk = true) :
    (mbox_index_append_next env s).stream.size = s.size ∧
    (mbox_index_append_next env s).stream.offset =
      s.offset + (findNL (remaining s) + 1) +
        mbox_read_message
          ((s.data.take s.size).drop (s.offset + (findNL (remaining s) + 1))) := by
  simp only [remaining] at hok
  cases hu : env.updateEndOk <;> cases hf : env.fmsyncOk <;>
    simp [mbox_index_append_next, hok, ha, hu, hf, remaining]

/-- Environment whose header collaborator leaves the cursor at an
arbitrary unrelated position, with all storage operations succeeding. -/
def envC6 : Env :=
  { envC1 with fmsyncOk := true, hdrCursor := fun _ => 999 }

/-- C6 witness: even with a header collaborator that dumps the cursor at
position 999, ceiling and cursor are restored on the concrete message. -/
theorem C6_ceiling_restored_witness :
    (mbox_index_append_next envC6 sC1).stream.size = sC1.size ∧
    (mbox_index_append_next envC6 sC1).stream.offset =
      sC1.offset + (findNL (remaining sC1) + 1) +
        mbox_read_message
          ((sC1.data.take sC1.size).drop
            (sC1.offset + (findNL (remaining sC1) + 1))) :=
  C6_ceiling_restored envC6 sC1 (by decide) rfl

/-- C7: a separator timestamp that parses to the unknown sentinel (a
non-positive value) does not fail the transaction: no integrity flag, no
error, success determined solely by the collaborator outcomes, and the
record internal date is the caller-supplied current time. -/
theorem C7_date_fallback (env : Env) (s : Stream)
    (hok : fromLineBad (remaining s) = false)
    (hd : env.parseDate (remaining s) ≤ 0) :
    (mbox_index_append_next env s).fsck = false ∧
    (mbox_index_append_next env s).error = none ∧
    (mbox_index_append_next env s).ok =
      (env.appendOk && env.updateEndOk && env.fmsyncOk) ∧
    (env.appendOk = true →
      (mbox_index_append_next env s).recInternalDate = some env.ioloopTime) := by
  cases ha : env.appendOk <;> cases hu : env.updateEndOk <;>
    cases hf : env.fmsyncOk <;>
    simp [mbox_index_append_next, hok, ha, hu, hf, hd,
      NextResult.recInternalDate]

/-- Environment whose date parser always fails with the sentinel -1. -/
def envC7 : Env := { envC1 with fmsyncOk := true, parseDate := fun _ => -1 }

/-- C7 witness: with a failing date parse on the concrete message, the
transaction succeeds and the internal date is the current time. -/
theorem C7_date_fallback_witness :
    (mbox_index_append_next envC7 sC1).fsck = false ∧
    (mbox_index_append_next envC7 sC1).error = none ∧
    (mbox_index_append_next envC7 sC1).ok =
      (envC7.appendOk && envC7.updateEndOk && envC7.fmsyncOk) ∧
    (envC7.appendOk = true →
      (mbox_index_append_next envC7 sC1).recInternalDate =
        some envC7.ioloopTime) :=
  C7_date_fallback envC7 sC1 (by decide) (by decide)

/-- C9: the current-time fallback triggers exactly when the parsed date is
non-positive: a date parsing to the epoch (0) or negative also yields the
current time, while a positive date is kept as parsed. -/
theorem C9_nonpositive_date_fallback (env : Env) (s : Stream)
    (hok : fromLineBad (remaining s) = false) (ha : env.appendOk = true) :
    (env.parseDate (remaining s) ≤ 0 →
      (mbox_index_append_next env s).recInternalDate = some env.ioloopTime) ∧
    (0 < env.parseDate (remaining s) →
      (mbox_index_append_next env s).recInternalDate =
        some (env.parseDate (remaining s))) := by
  constructor
  · intro hd
    cases hu : env.updateEndOk <;> cases hf : env.fmsyncOk <;>
      simp [mbox_index_append_next, hok, ha, hu, hf, hd,
        NextResult.recInternalDate]
  · intro hd
    have hdn : ¬ env.parseDate (remaining s) ≤ 0 := not_le.mpr hd
    cases hu : env.updateEndOk <;> cases hf : env.fmsyncOk <;>
      simp [mbox_index_append_next, hok, ha, hu, hf, hdn,
        NextResult.recInternalDate]

/-- Environment whose date parser returns the Unix epoch (time 0). -/
def envC9 : Env := { envC1 with fmsyncOk := true, parseDate := fun _ => 0 }

/-- C9 witness: a timestamp that parses to the epoch still yields the
current time as internal date. -/
theorem C9_nonpositive_date_fallback_witness :
    (mbox_index_append_next envC9 sC1).recInternalDate =
      some envC9.ioloopTime :=
  (C9_nonpositive_date_fallback envC9 sC1 (by decide) rfl).1 (by decide)

/-- C10: if the durability barrier fails after a successful commit, the
transaction returns failure without freeing the header parse context;
on commit failure or on full success the context is freed exactly once. -/
theorem C10_ctx_free_on_fmsync_fail (env : Env) (s : Stream)
    (hok : fromLineBad (remaining s) = false) (ha : env.appendOk = true) :
    (env.updateEndOk = true → env.fmsyncOk = false →
      (mbox_index_append_next env s).ctxFreed = 0 ∧
      (mbox_index_append_next env s).ok = false) ∧
    (env.updateEndOk = false →
      (mbox_index_append_next env s).ctxFreed = 1 ∧
      (mbox_index_append_next env s).ok = false) ∧
    (env.updateEndOk = true → env.fmsyncOk = true →
      (mbox_index_append_next env s).ctxFreed = 1 ∧
      (mbox_index_append_next env s).ok = true) := by
  cases hu : env.updateEndOk <;> cases hf : env.fmsyncOk <;>
    simp [mbox_index_append_next, hok, ha, hu, hf]

/-- C10 witness: on the concrete message with commit succeeding and the
barrier failing, the header context is not freed and the call fails. -/
theorem C10_ctx_free_on_fmsync_fail_witness :
    (mbox_index_append_next envC1 sC1).ctxFreed = 0 ∧
    (mbox_index_append_next envC1 sC1).ok = false :=
  (C10_ctx_free_on_fmsync_fail envC1 sC1 (by decide) rfl).1 rfl rfl

theorem next_fsck_eq (env : Env) (s : Stream) :
    (mbox_index_append_next env s).fsck = fromLineBad (remaining s) := by
  cases hb : fromLineBad (remaining s)
  · cases ha : env.appendOk <;> cases hu : env.updateEndOk <;>
      cases hf : env.fmsyncOk <;>
      simp [mbox_index_append_next, hb, ha, hu, hf]
  · simp [mbox_index_append_next, hb]

theorem next_error_none (env : Env) (s : Stream)
    (h : fromLineBad (remaining s) = false) :
    (mbox_index_append_next env s).error = none := by
  cases ha : env.appendOk <;> cases hu : env.updateEndOk <;>
    cases hf : env.fmsyncOk <;>
    simp [mbox_index_append_next, h, ha, hu, hf]

theorem appendLoop_fsck_abort (env : Env) :
    ∀ (fuel : Nat) (s : Stream), (appendLoop env fuel s).fsck = true →
      (appendLoop env fuel s).ok = false ∧
      (appendLoop env fuel s).error.isSome = true := by
  intro fuel
  induction fuel with
  | zero => intro s h; simp [appendLoop] at h
  | succ n ih =>
    intro s h
    simp only [appendLoop] at h ⊢
    rcases hstep : loopStep s with _ | t
    · simp
    · rw [hstep] at h
      simp only [Option.elim] at h ⊢
      by_cases hEOF : t.offset = t.size
      · rw [if_pos hEOF] at h
        simp at h
      · rw [if_neg hEOF] at h ⊢
        by_cases hr : (mbox_index_append_next env t).ok = true
        · rw [if_pos hr] at h ⊢
          exact ih _ h
        · rw [if_neg hr] at h ⊢
          simp only at h
          have hb : fromLineBad (remaining t) = true := by
            rw [← next_fsck_eq env t]; exact h
          rw [next_eq_bad env t hb]
          simp

/-- C2: the sticky FSCK flag is set by the message transaction exactly
when the From-line integrity check fails (missing newline in the lookahead
window, window not longer than the 5-byte minimum, or not starting with
"From "), in which case a path-qualified error is produced and the call
aborts; the driver sets it on a missing [CR]LF terminator, also with a
path-qualified error; lock failure returns failure with no flag and no
error; and whenever the append sets the flag it also fails with an error. -/
theorem C2_fsck_iff_integrity (env : Env) (s : Stream) :
    ((mbox_index_append_next env s).fsck = true ↔
      fromLineBad (remaining s) = true) ∧
    (fromLineBad (remaining s) = true →
      (mbox_index_append_next env s).ok = false ∧
      (mbox_index_append_next env s).error =
        some (MboxError.fromLineNotFound env.mboxPath) ∧
      (mbox_index_append_next env s).record = none) ∧
    (fromLineBad (remaining s) = false →
      (mbox_index_append_next env s).error = none) ∧
    (s.offset ≠ s.size → env.lockOk = false →
      mbox_index_append env s =
        { ok := false, fsck := false, error := none, stream := s }) ∧
    (s.offset ≠ s.size → s.offset ≠ 0 → env.lockOk = true →
      mbox_skip_crlf (remaining s) = none →
      mbox_index_append env s =
        { ok := false, fsck := true,
          error := some (MboxError.lfNotFound env.mboxPath), stream := s }) ∧
    ((mbox_index_append env s).fsck = true →
      (mbox_index_append env s).ok = false ∧
      (mbox_index_append env s).error.isSome = true) := by
  refine ⟨?_, ?_, ?_, ?_, ?_, ?_⟩
  · rw [next_fsck_eq]
  · intro hb
    rw [next_eq_bad env s hb]
    simp
  · intro hb
    exact next_error_none env s hb
  · intro hne hlk
    simp [mbox_index_append, hne, hlk]
  · intro hne h0 hlk hsk
    simp [mbox_index_append, hne, hlk, appendLoop, loopStep, h0, hsk]
  · intro hf
    by_cases hEOF : s.offset = s.size
    · simp [mbox_index_append, hEOF] at hf
    · by_cases hlk : env.lockOk = true
      · simp only [mbox_index_append, if_neg hEOF, if_pos hlk] at hf ⊢
        exact appendLoop_fsck_abort env _ s hf
      · simp [mbox_index_append, hEOF, hlk] at hf

/-- Concrete malformed stream "garbage\n" (not a From-line). -/
def sBad : Stream :=
  { data := [103, 97, 114, 98, 97, 103, 101, 10], offset := 0, size := 8 }

/-- C2 witness: on the concrete malformed stream the transaction aborts
with a path-qualified From-line error and no record. -/
theorem C2_fsck_iff_integrity_witness :
    (mbox_index_append_next envC1 sBad).ok = false ∧
    (mbox_index_append_next envC1 sBad).error =
      some (MboxError.fromLineNotFound envC1.mboxPath) ∧
    (mbox_index_append_next envC1 sBad).record = none :=
  (C2_fsck_iff_integrity envC1 sBad).2.1 (by decide)

end MboxAppend
